import Mathlib

/-!
Shallow embedding of the `useDraggable` binding of `vue-draggable-plus`
(source: the `useDraggable` function and its helpers), together with proofs
of the behavioural properties its specification states.

Conventions of the embedding:
* JavaScript arrays become `List`; an out-of-range read (`arr[i]`) becomes
  `List.get? i = none` (the JS value `undefined`).
* Code that can throw returns `Except JsError _`; total code returns plain
  values.
* The reactive `Ref` wrapper is modelled by the value it holds (the code
  always reads `list.value` / `unref`), and wholesale replacement of
  `list.value` is the returned list.
* The helper module `utils` of the repository is not among the sources;
  the helpers the claims need are modelled from the specification and
  carry a doc comment saying so.
-/

namespace VueDraggablePlus

/-- JavaScript runtime errors that the embedded code can raise. -/
inductive JsError where
  /-- a `TypeError` from dereferencing `undefined`/`null` -/
  | typeError (msg : String)
  /-- the `Error('Root element not found')` thrown by `getTarget` -/
  | targetNotFound
deriving DecidableEq, Repr

/-- Modelled from the spec: `insertElement` of the absent `utils` module —
an array splice `arr.splice(index, 0, el)`, inserting `x` at index `i`
(clamped to the array length, as `splice` clamps). -/
def insertElement (l : List α) (i : Nat) (x : α) : List α :=
  l.take i ++ x :: l.drop i

/-- Modelled from the spec: `removeElement` of the absent `utils` module —
an array splice `arr.splice(index, 1)`, removing the element at index `i`
(no change when `i` is out of range, as `splice` behaves). -/
def removeElement (l : List α) (i : Nat) : List α :=
  l.take i ++ l.drop (i + 1)

/-- Modelled from the spec: `moveArrayElement` of the absent `utils`
module — remove the element at index `i` and reinsert it at index `j`
("move the item from old index to new index within the same collection"). -/
def moveArrayElement (l : List α) (i j : Nat) : List α :=
  match l.get? i with
  | none => l
  | some x => insertElement (removeElement l i) j x

/-- The reactive reference holding a bound collection (`Ref<T[]>`):
the code only ever reads `.value`. -/
structure ListRef (α : Type) where
  value : List α
deriving DecidableEq, Repr

/-- The expando object a drag-engine instance installs on its container
element (the property whose key starts with `Sortable`); `start` stores the
bound collection on it as `__list`, so `list?` is `none` for an engine not
created by this binding. -/
structure SortableHandle (α : Type) where
  list? : Option (ListRef α)
deriving DecidableEq, Repr

/-- A DOM container element, as far as the binding observes it: it may or
may not carry a drag-engine expando property. -/
structure Elem (α : Type) where
  handle? : Option (SortableHandle α)
deriving DecidableEq, Repr

/-- `getListFromEl`: find the property key starting with `Sortable` on the
element and read `__list` off it; `none` when there is no such key or the
handle carries no `__list` (the JS expression `key && el[key]?.__list`
evaluating to `undefined`). -/
def getListFromEl (e : Elem α) : Option (ListRef α) :=
  match e.handle? with
  | none => none
  | some h => h.list?

/-- The fields of the drag-engine event object that the add handler reads:
`evt.from` (source container element), `evt.oldIndex!` and
`evt.newDraggableIndex!`. -/
structure AddEvent (α : Type) where
  fromEl : Elem α
  oldIndex : Nat
  newDraggableIndex : Nat

/-- `onAdd`: resolve the source collection from `evt.from`, read the item at
`evt.oldIndex`, return silently when it is `undefined`, else insert it into
the destination at `evt.newDraggableIndex` and replace the destination
wholesale. When `getListFromEl` resolves nothing, the source line
`fromList.value[evt.oldIndex!]` dereferences `undefined` and throws a
`TypeError`. The result is the destination collection after the handler. -/
def onAdd (dest : List α) (evt : AddEvent α) : Except JsError (List α) :=
  match getListFromEl evt.fromEl with
  | none => .error (.typeError "Cannot read properties of undefined (reading 'value')")
  | some fromList =>
    match fromList.value.get? evt.oldIndex with
    | none => .ok dest
    | some item => .ok (insertElement dest evt.newDraggableIndex item)

/-- The fields of the drag-engine event object that the remove and update
handlers read: `evt.oldDraggableIndex!` and `evt.newDraggableIndex!`. -/
structure UpdateEvent where
  oldDraggableIndex : Nat
  newDraggableIndex : Nat
deriving DecidableEq, Repr

/-- `onRemove`: remove the item at `evt.oldDraggableIndex` from a copy of
the collection and replace the collection wholesale. -/
def onRemove (lst : List α) (evt : UpdateEvent) : List α :=
  removeElement lst evt.oldDraggableIndex

/-- `onUpdate`: when a caller-supplied `customUpdate` is configured, call it
and return (no default mutation); otherwise move the item from
`evt.oldDraggableIndex` to `evt.newDraggableIndex` and replace the
collection wholesale. A handler is modelled as a trace function
`UpdateEvent → List τ` recording the observable actions it performs; the
result is the collection after the handler paired with the trace of the
custom handler's actions. -/
def onUpdate (customUpdate : Option (UpdateEvent → List τ)) (lst : List α)
    (evt : UpdateEvent) : List α × List τ :=
  match customUpdate with
  | some f => (lst, f evt)
  | none => (moveArrayElement lst evt.oldDraggableIndex evt.newDraggableIndex, [])

/-- The fields of the drag-engine event object that the start handler
reads: `evt.oldIndex!` (the `item` node it writes to is the first component
of the result). -/
structure StartEvent where
  oldIndex : Nat
deriving DecidableEq, Repr

/-! ## The lifecycle controller

`useDraggable` keeps one mutable slot `instance : Sortable | null`; `start`
resolves a target, destroys any live instance, constructs a fresh engine
against the target and records `__list` on it. We model the closure state
as `Ctrl`, with an event log recording each engine construction and
destruction in program order, so that liveness and ordering are
observable. DOM elements are abstract (`E`). -/

/-- One observable lifecycle action on drag-engine instances. -/
inductive EngEvent (E : Type) where
  /-- `new Sortable(target, …)` returning the instance with this id -/
  | created (id : Nat) (target : E)
  /-- `instance.destroy()` on the instance with this id -/
  | destroyed (id : Nat)
deriving DecidableEq, Repr

/-- The closure state of one `useDraggable` call: the nullable instance
slot (id and target of the live engine), a fresh-id counter for naming the
next construction, and the log of constructions/destructions so far. -/
structure Ctrl (E : Type) where
  inst? : Option (Nat × E)
  nextId : Nat
  events : List (EngEvent E)
deriving DecidableEq, Repr

/-- The engine instances still alive after a log of events: `created`
appends, `destroyed` removes. -/
def liveAfter (evs : List (EngEvent E)) : List (Nat × E) :=
  evs.foldl
    (fun acc ev =>
      match ev with
      | .created i t => acc ++ [(i, t)]
      | .destroyed i => acc.filter (fun p => p.1 ≠ i))
    []

/-- `methods.destroy`: `instance?.destroy(); instance = null` — destroys the
live engine if there is one and clears the slot; a no-op on an absent
instance. -/
def destroyM (c : Ctrl E) : Ctrl E :=
  match c.inst? with
  | none => c
  | some (i, _) => { c with inst? := none, events := c.events ++ [.destroyed i] }

/-- What `unref(el)` can produce once a selector string has been ruled out:
an HTML element, or a component public instance whose root `$el` may itself
be missing. -/
inductive DomVal (E : Type) where
  | htmlEl (e : E)
  | comp (root? : Option E)
deriving DecidableEq, Repr

/-- The `el` argument of `useDraggable` after dereferencing
(`unref(el)`): either a selector string, or a (possibly empty) reference
holding a DOM value. -/
inductive ElConfig (E : Type) where
  | selector (s : String)
  | value (v? : Option (DomVal E))
deriving DecidableEq, Repr

/-- The document, observed only through `document.querySelector`. -/
structure Doc (E : Type) where
  query : String → Option E

/-- `getTarget`: prefer the explicit `target` argument; else dereference the
configured element (querying the document when it is a selector string);
unwrap a non-HTML-element value to its `$el`; throw
`Error('Root element not found')` when nothing resolves. -/
def getTarget (doc : Doc E) (el : ElConfig E) (tgt? : Option E) :
    Except JsError E :=
  let ft : Option (DomVal E) :=
    match tgt? with
    | some t => some (.htmlEl t)
    | none =>
      match el with
      | .selector s => (doc.query s).map .htmlEl
      | .value v? => v?
  let ft2 : Option E :=
    match ft with
    | none => none
    | some (.htmlEl e) => some e
    | some (.comp r?) => r?
  match ft2 with
  | none => .error .targetNotFound
  | some e => .ok e

/-- `start`: resolve the target (propagating its error, in which case the
closure state is untouched), destroy the live instance if any, construct a
fresh engine against the resolved target and store it in the slot
(`__list` is recorded on the new instance; the collection reference is not
part of `Ctrl` since it never changes). -/
def start (doc : Doc E) (el : ElConfig E) (c : Ctrl E) (tgt? : Option E) :
    Except JsError (Ctrl E) :=
  match getTarget doc el tgt? with
  | .error e => .error e
  | .ok target =>
    let c1 := if c.inst?.isSome then destroyM c else c
    .ok { inst? := some (c1.nextId, target),
          nextId := c1.nextId + 1,
          events := c1.events ++ [.created c1.nextId target] }

/-- `methods.option`: `instance?.option(name, value)` — `none` (JS
`undefined`) on an absent instance; on a live instance the engine's own
behaviour, abstracted as the function `f`. -/
def optionM (f : Nat × E → String → Option β → Option β) (c : Ctrl E)
    (name : String) (v? : Option β) : Option β :=
  match c.inst? with
  | none => none
  | some p => f p name v?

/-- `methods.save`: `instance?.save()` — `none` on an absent instance. -/
def saveM (f : Nat × E → Unit) (c : Ctrl E) : Option Unit :=
  match c.inst? with
  | none => none
  | some p => some (f p)

/-- `methods.toArray`: `instance?.toArray()` — `none` on an absent
instance. -/
def toArrayM (f : Nat × E → List String) (c : Ctrl E) : Option (List String) :=
  match c.inst? with
  | none => none
  | some p => some (f p)

/-- `methods.closest`: `instance?.closest(...)` — `none` on an absent
instance. -/
def closestM (f : Nat × E → Option E) (c : Ctrl E) : Option (Option E) :=
  match c.inst? with
  | none => none
  | some p => some (f p)

/-- `pause`: `methods.option('disabled', true)`. -/
def pause (f : Nat × E → String → Option Bool → Option Bool) (c : Ctrl E) :
    Option Bool :=
  optionM f c "disabled" (some true)

/-- `resume`: `methods.option('disabled', false)`. -/
def resume (f : Nat × E → String → Option Bool → Option Bool) (c : Ctrl E) :
    Option Bool :=
  optionM f c "disabled" (some false)

/-! ## Configuration merge

Event handlers are modelled as trace functions `ε → List τ`: calling a
handler on an event appends the actions it performs. Composing two handler
option-maps must make both sides' handler for a shared name run. -/

/-- The event-handler slots of a configuration, for the four lifecycle
events the binding installs (`presetOptions` has all four; the caller's
configuration any subset). -/
structure EventHandlers (ε τ : Type) where
  onStart : Option (ε → List τ)
  onAdd : Option (ε → List τ)
  onRemove : Option (ε → List τ)
  onUpdate : Option (ε → List τ)

/-- Modelled from the spec: the handler composition of `mergeOptionsEvents`
of the absent `utils` module — when both sides define a handler for the
same event name the result invokes the first (the binding's) and then the
second (the caller's); a handler present on only one side passes
through. -/
def composeHandler {ε τ : Type} : Option (ε → List τ) → Option (ε → List τ) →
    Option (ε → List τ)
  | none, h => h
  | some f, none => some f
  | some f, some g => some (fun e => f e ++ g e)

/-- Modelled from the spec: `mergeOptionsEvents` of the absent `utils`
module, restricted to the four event-handler keys — a shallow merge where
both sides' handlers for the same name must run, the binding's first. -/
def mergeOptionsEvents (target source : EventHandlers ε τ) :
    EventHandlers ε τ where
  onStart := composeHandler target.onStart source.onStart
  onAdd := composeHandler target.onAdd source.onAdd
  onRemove := composeHandler target.onRemove source.onRemove
  onUpdate := composeHandler target.onUpdate source.onUpdate

/-- The caller-supplied options object as `mergeOptions` destructures it:
the two controller-only keys `immediate` and `clone` (stripped by the rest
pattern), the event-handler keys, and the remaining engine options. -/
structure UserOptions (ε τ ρ : Type) where
  immediate : Option Bool
  cloneKey : Option ρ
  handlers : EventHandlers ε τ
  rest : List (String × ρ)

/-- The configuration handed to the drag-engine constructor: merged
handlers plus the pass-through engine options. -/
structure MergedConfig (ε τ ρ : Type) where
  handlers : EventHandlers ε τ
  rest : List (String × ρ)

/-- `mergeOptions`: strip `immediate` and `clone` from the caller's
options (`{}` when absent) and merge the binding's preset handlers (`{}`
when `list` is `null`) with the rest via `mergeOptionsEvents`. -/
def mergeOptions (listNull : Bool) (preset : EventHandlers ε τ)
    (u? : Option (UserOptions ε τ ρ)) : MergedConfig ε τ ρ :=
  let u := u?.getD ⟨none, none, ⟨none, none, none, none⟩, []⟩
  { handlers :=
      mergeOptionsEvents
        (if listNull then ⟨none, none, none, none⟩ else preset)
        u.handlers,
    rest := u.rest }

/-- The four lifecycle event names of the binding's required handler set. -/
inductive HandlerName where
  | start | add | remove | update
deriving DecidableEq, Repr

/-- Project the handler slot for a given lifecycle event name. -/
def getH (n : HandlerName) (h : EventHandlers ε τ) : Option (ε → List τ) :=
  match n with
  | .start => h.onStart
  | .add => h.onAdd
  | .remove => h.onRemove
  | .update => h.onUpdate

/-! ## The default clone function

`defaultClone` is `JSON.parse(JSON.stringify(x))` with `undefined` and
`null` passed through. To talk about reference equality we give every
object and array an address; `JSON.stringify` erases addresses into a pure
tree, `JSON.parse` rebuilds a value allocating fresh addresses from a
counter. Two values are deeply equal when they erase to the same tree;
they are reference-equal when they are object-typed with the same root
address. -/

mutual
/-- A JavaScript runtime value: primitives, plus objects and arrays
carrying the address of their allocation. -/
inductive JVal where
  | undef
  | jnull
  | num (n : Int)
  | str (s : String)
  | bool (b : Bool)
  | obj (addr : Nat) (fields : JFields)
  | arr (addr : Nat) (elems : JElems)
deriving DecidableEq, Repr

/-- The fields of a JavaScript object, in key order. -/
inductive JFields where
  | nil
  | cons (key : String) (val : JVal) (rest : JFields)
deriving DecidableEq, Repr

/-- The elements of a JavaScript array. -/
inductive JElems where
  | nil
  | cons (val : JVal) (rest : JElems)
deriving DecidableEq, Repr
end

mutual
/-- A JSON document: what `JSON.stringify` serializes — no addresses, no
`undefined`. -/
inductive JTree where
  | tnull
  | tnum (n : Int)
  | tstr (s : String)
  | tbool (b : Bool)
  | tobj (fields : TFields)
  | tarr (elems : TElems)
deriving DecidableEq, Repr

/-- Fields of a JSON object. -/
inductive TFields where
  | nil
  | cons (key : String) (val : JTree) (rest : TFields)
deriving DecidableEq, Repr

/-- Elements of a JSON array. -/
inductive TElems where
  | nil
  | cons (val : JTree) (rest : TElems)
deriving DecidableEq, Repr
end

mutual
/-- `JSON.stringify`, as a tree: erase object identity. (`undefined` maps
to `null` formally; the round-trip theorem assumes the value contains no
`undefined`, i.e. is representable in the serialization format.) -/
def eraseV : JVal → JTree
  | .undef => .tnull
  | .jnull => .tnull
  | .num n => .tnum n
  | .str s => .tstr s
  | .bool b => .tbool b
  | .obj _ fs => .tobj (eraseF fs)
  | .arr _ es => .tarr (eraseE es)

/-- Address erasure on object fields. -/
def eraseF : JFields → TFields
  | .nil => .nil
  | .cons k v r => .cons k (eraseV v) (eraseF r)

/-- Address erasure on array elements. -/
def eraseE : JElems → TElems
  | .nil => .nil
  | .cons v r => .cons (eraseV v) (eraseE r)
end

mutual
/-- `JSON.parse`: rebuild a runtime value from a JSON tree, allocating
fresh addresses starting at the counter `c`; returns the value and the
next unused counter. -/
def allocV : JTree → Nat → JVal × Nat
  | .tnull, c => (.jnull, c)
  | .tnum n, c => (.num n, c)
  | .tstr s, c => (.str s, c)
  | .tbool b, c => (.bool b, c)
  | .tobj fs, c => (.obj c (allocF fs (c + 1)).1, (allocF fs (c + 1)).2)
  | .tarr es, c => (.arr c (allocE es (c + 1)).1, (allocE es (c + 1)).2)

/-- Allocation on object fields. -/
def allocF : TFields → Nat → JFields × Nat
  | .nil, c => (.nil, c)
  | .cons k v r, c =>
    (.cons k (allocV v c).1 (allocF r (allocV v c).2).1,
     (allocF r (allocV v c).2).2)

/-- Allocation on array elements. -/
def allocE : TElems → Nat → JElems × Nat
  | .nil, c => (.nil, c)
  | .cons v r, c =>
    (.cons (allocV v c).1 (allocE r (allocV v c).2).1,
     (allocE r (allocV v c).2).2)
end

mutual
/-- A value is representable in the serialization format when it contains
no `undefined` (cycles cannot occur in an inductive value and functions do
not occur in `JVal`). -/
def noUndefV : JVal → Bool
  | .undef => false
  | .jnull => true
  | .num _ => true
  | .str _ => true
  | .bool _ => true
  | .obj _ fs => noUndefF fs
  | .arr _ es => noUndefE es

/-- Representability of object fields. -/
def noUndefF : JFields → Bool
  | .nil => true
  | .cons _ v r => noUndefV v && noUndefF r

/-- Representability of array elements. -/
def noUndefE : JElems → Bool
  | .nil => true
  | .cons v r => noUndefV v && noUndefE r
end

/-- `typeof x === 'object'` and non-null: objects and arrays, the values
with reference identity. -/
def isObjectTyped : JVal → Bool
  | .obj _ _ => true
  | .arr _ _ => true
  | _ => false

/-- The address of a value's own allocation (`none` for primitives);
object-typed values are reference-equal exactly when their root addresses
coincide. -/
def rootAddr : JVal → Option Nat
  | .obj a _ => some a
  | .arr a _ => some a
  | _ => none

mutual
/-- All allocation addresses occurring in a value. -/
def addrsV : JVal → List Nat
  | .undef => []
  | .jnull => []
  | .num _ => []
  | .str _ => []
  | .bool _ => []
  | .obj a fs => a :: addrsF fs
  | .arr a es => a :: addrsE es

/-- All allocation addresses occurring in object fields. -/
def addrsF : JFields → List Nat
  | .nil => []
  | .cons _ v r => addrsV v ++ addrsF r

/-- All allocation addresses occurring in array elements. -/
def addrsE : JElems → List Nat
  | .nil => []
  | .cons v r => addrsV v ++ addrsE r
end

/-- `defaultClone`: return `undefined` and `null` unchanged, otherwise
`JSON.parse(JSON.stringify(element))`; `fresh` is the runtime's allocation
counter for the newly built objects (every address at or above `fresh` is
unused by existing values). -/
def defaultClone (x : JVal) (fresh : Nat) : JVal :=
  match x with
  | .undef => .undef
  | .jnull => .jnull
  | x => (allocV (eraseV x) fresh).1

/-- `onStart`: store a clone of the dragged item on the dragged DOM node,
`evt.item[CLONE_ELEMENT_KEY] = clone(unref(unref(list)?.[evt.oldIndex!]))`.
Items are JavaScript values; an out-of-range array read evaluates to
`undefined` (`JVal.undef`), and `unref` of a non-ref value is the value
itself. The first component of the result is the value stored on the node,
the second the collection after the handler (the code never writes `list`
here). -/
def onStart (cloneF : JVal → JVal) (lst : List JVal) (evt : StartEvent) :
    JVal × List JVal :=
  (cloneF ((lst.get? evt.oldIndex).getD .undef), lst)

/-! ## Helper lemmas about the splice operations -/

theorem insertElement_zero {α : Type} (l : List α) (x : α) :
    insertElement l 0 x = x :: l := by
  simp [insertElement]

theorem insertElement_cons_succ {α : Type} (a : α) (l : List α) (j : Nat) (x : α) :
    insertElement (a :: l) (j + 1) x = a :: insertElement l j x := by
  simp [insertElement]

theorem removeElement_zero_cons {α : Type} (a : α) (l : List α) :
    removeElement (a :: l) 0 = l := by
  simp [removeElement]

theorem removeElement_cons_succ {α : Type} (a : α) (l : List α) (i : Nat) :
    removeElement (a :: l) (i + 1) = a :: removeElement l i := by
  simp [removeElement]

theorem insertElement_get_self {α : Type} (l : List α) (j : Nat) (x : α)
    (h : j ≤ l.length) : (insertElement l j x).get? j = some x := by
  induction l generalizing j with
  | nil =>
    have : j = 0 := by simpa using h
    subst this; rfl
  | cons a l ih =>
    cases j with
    | zero => simp [insertElement_zero]
    | succ j => simpa [insertElement_cons_succ] using ih j (by simpa using h)

theorem removeElement_insertElement {α : Type} (l : List α) (j : Nat) (x : α)
    (h : j ≤ l.length) : removeElement (insertElement l j x) j = l := by
  induction l generalizing j with
  | nil =>
    have : j = 0 := by simpa using h
    subst this; rfl
  | cons a l ih =>
    cases j with
    | zero => simp [insertElement_zero, removeElement_zero_cons]
    | succ j =>
      simpa [insertElement_cons_succ, removeElement_cons_succ]
        using ih j (by simpa using h)

theorem insertElement_length {α : Type} (l : List α) (j : Nat) (x : α)
    (h : j ≤ l.length) : (insertElement l j x).length = l.length + 1 := by
  simp [insertElement]
  omega

theorem removeElement_length {α : Type} (l : List α) (i : Nat)
    (h : i < l.length) : (removeElement l i).length = l.length - 1 := by
  simp [removeElement]
  omega

/-! ## Helper lemmas about serialization -/

mutual
theorem erase_allocV (t : JTree) (c : Nat) : eraseV (allocV t c).1 = t := by
  cases t with
  | tnull => rfl
  | tnum n => rfl
  | tstr s => rfl
  | tbool b => rfl
  | tobj fs => simp [allocV, eraseV, erase_allocF fs (c + 1)]
  | tarr es => simp [allocV, eraseV, erase_allocE es (c + 1)]

theorem erase_allocF (fs : TFields) (c : Nat) : eraseF (allocF fs c).1 = fs := by
  cases fs with
  | nil => rfl
  | cons k v r =>
    simp [allocF, eraseF, erase_allocV v c, erase_allocF r (allocV v c).2]

theorem erase_allocE (es : TElems) (c : Nat) : eraseE (allocE es c).1 = es := by
  cases es with
  | nil => rfl
  | cons v r =>
    simp [allocE, eraseE, erase_allocV v c, erase_allocE r (allocV v c).2]
end

/-- Appending one engine event to a log appends the created instance to the
live set. -/
theorem liveAfter_append_created {E : Type} (evs : List (EngEvent E)) (i : Nat)
    (t : E) : liveAfter (evs ++ [.created i t]) = liveAfter evs ++ [(i, t)] := by
  simp [liveAfter, List.foldl_append]

/-- Appending a destruction event to a log removes the instance from the
live set. -/
theorem liveAfter_append_destroyed {E : Type} (evs : List (EngEvent E))
    (i : Nat) :
    liveAfter (evs ++ [.destroyed i]) =
      (liveAfter evs).filter (fun p => p.1 ≠ i) := by
  simp [liveAfter, List.foldl_append]

/-! ## The claims -/

/-- C1 (counterexample): on a cross-container add event whose source
element carries no library-installed handle, the add handler does not
"return without changing the destination collection": dereferencing the
unresolved source collection throws a `TypeError`. Concrete input:
destination `[10]`, event from a handle-less element with old index 0. -/
theorem onAdd_no_handle_throws_cex :
    onAdd ([10] : List Nat) ⟨⟨none⟩, 0, 0⟩ ≠ .ok [10] ∧
    onAdd ([10] : List Nat) ⟨⟨none⟩, 0, 0⟩ =
      .error (.typeError "Cannot read properties of undefined (reading 'value')") := by
  constructor
  · intro h
    simp [onAdd, getListFromEl] at h
  · rfl

/-- C1 (amended): on a cross-container add event, if the resolved source
collection has no item at the reported old index the handler performs no
mutation and does not throw; but if the source element carries no
library-installed handle the handler throws a `TypeError` (the destination
is still left unmutated, since the throw precedes any write). -/
theorem onAdd_missing_source_amended {α : Type} (dest : List α)
    (evt : AddEvent α) :
    (getListFromEl evt.fromEl = none →
      onAdd dest evt =
        .error (.typeError "Cannot read properties of undefined (reading 'value')")) ∧
    (∀ fl, getListFromEl evt.fromEl = some fl →
      fl.value.get? evt.oldIndex = none → onAdd dest evt = .ok dest) := by
  constructor
  · intro h
    simp [onAdd, h]
  · intro fl h1 h2
    simp only [List.get?_eq_getElem?] at h2
    simp [onAdd, h1, h2]

/-- C1 (witness): the amended theorem at destination `[10]` and an event
whose source element is bound to the empty collection with old index 5. -/
theorem onAdd_missing_source_amended_witness :
    onAdd ([10] : List Nat) ⟨⟨some ⟨some ⟨[]⟩⟩⟩, 5, 0⟩ = .ok [10] :=
  (onAdd_missing_source_amended [10] ⟨⟨some ⟨some ⟨[]⟩⟩⟩, 5, 0⟩).2 ⟨[]⟩ rfl rfl

/-- C2: for every event name in the binding's required handler set, when
the caller also supplies a handler for that name, the merged
configuration's handler for that name fires the binding's handler first
and then the caller's, each exactly once, in that order (traces
concatenate, and singleton traces yield exactly the two tags in order). -/
theorem mergeOptions_runs_both_handlers {ε τ ρ : Type} (n : HandlerName)
    (preset : EventHandlers ε τ) (u : UserOptions ε τ ρ) (hb hc : ε → List τ)
    (h1 : getH n preset = some hb) (h2 : getH n u.handlers = some hc) :
    ∃ m, getH n (mergeOptions false preset (some u)).handlers = some m ∧
      (∀ e, m e = hb e ++ hc e) ∧
      (∀ e t1 t2, hb e = [t1] → hc e = [t2] → m e = [t1, t2]) := by
  refine ⟨fun e => hb e ++ hc e, ?_, fun e => rfl, ?_⟩
  · cases n <;>
      simp [getH, mergeOptions, mergeOptionsEvents] at h1 h2 ⊢ <;>
      simp [h1, h2, composeHandler]
  · intro e t1 t2 hb1 hc1
    simp [hb1, hc1]

/-- C2 (witness): merging a preset start handler tracing `0` with a caller
start handler tracing `1` yields a handler tracing `[0, 1]`. -/
theorem mergeOptions_runs_both_handlers_witness :
    ∃ m, getH HandlerName.start
        (mergeOptions false
          (⟨some (fun _ : Unit => [0]), none, none, none⟩ : EventHandlers Unit Nat)
          (some ⟨none, none, ⟨some (fun _ : Unit => [1]), none, none, none⟩,
            ([] : List (String × Unit))⟩)).handlers = some m ∧
      m () = [0, 1] := by
  obtain ⟨m, hm, hall, _⟩ :=
    mergeOptions_runs_both_handlers HandlerName.start
      ⟨some (fun _ : Unit => [0]), none, none, none⟩
      ⟨none, none, ⟨some (fun _ : Unit => [1]), none, none, none⟩,
        ([] : List (String × Unit))⟩
      (fun _ => [0]) (fun _ => [1]) rfl rfl
  exact ⟨m, hm, by simp [hall]⟩

/-- C3: on a within-list reorder event with both indices in range and no
custom update handler, the handler yields the original collection with the
element at the old index removed and reinserted at the new index: the
moved element sits at the new index, deleting it there gives exactly the
original minus that element (so all other elements keep their relative
order), and the length is preserved. -/
theorem onUpdate_default_reorder {α : Type} (lst : List α) (evt : UpdateEvent)
    (x : α) (hx : lst.get? evt.oldDraggableIndex = some x)
    (hj : evt.newDraggableIndex < lst.length) :
    ((onUpdate (none : Option (UpdateEvent → List Unit)) lst evt).1.get?
        evt.newDraggableIndex = some x) ∧
    removeElement (onUpdate (none : Option (UpdateEvent → List Unit)) lst evt).1
        evt.newDraggableIndex = removeElement lst evt.oldDraggableIndex ∧
    (onUpdate (none : Option (UpdateEvent → List Unit)) lst evt).1.length =
      lst.length := by
  have hi : evt.oldDraggableIndex < lst.length :=
    (List.get?_eq_some.mp hx).1
  have hrl : (removeElement lst evt.oldDraggableIndex).length = lst.length - 1 :=
    removeElement_length lst _ hi
  have hj2 : evt.newDraggableIndex ≤ (removeElement lst evt.oldDraggableIndex).length := by
    omega
  have hmove : (onUpdate (none : Option (UpdateEvent → List Unit)) lst evt).1 =
      insertElement (removeElement lst evt.oldDraggableIndex)
        evt.newDraggableIndex x := by
    have hx' := hx
    simp only [List.get?_eq_getElem?] at hx'
    simp [onUpdate, moveArrayElement, hx']
  rw [hmove]
  refine ⟨insertElement_get_self _ _ _ hj2,
    removeElement_insertElement _ _ _ hj2, ?_⟩
  rw [insertElement_length _ _ _ hj2, hrl]
  omega

/-- C3 (witness): from `[A, B, C, D]`, a reorder with old index 0 and new
index 2 yields `[B, C, A, D]`, with the moved element `A` at index 2. -/
theorem onUpdate_default_reorder_witness :
    (onUpdate (none : Option (UpdateEvent → List Unit))
        ["A", "B", "C", "D"] ⟨0, 2⟩).1 = ["B", "C", "A", "D"] ∧
    (onUpdate (none : Option (UpdateEvent → List Unit))
        ["A", "B", "C", "D"] ⟨0, 2⟩).1.get? 2 = some "A" := by
  refine ⟨?_,
    (onUpdate_default_reorder ["A", "B", "C", "D"] ⟨0, 2⟩ "A" rfl (by decide)).1⟩
  simp [onUpdate, moveArrayElement, insertElement, removeElement]

/-- C4: when the target resolves, `start` leaves exactly one live
drag-engine instance, bound to the newly resolved target; if an instance
was active before the call it is destroyed before the new one is
constructed (visible in the event log ordering). -/
theorem start_exactly_one_live {E : Type} (doc : Doc E) (el : ElConfig E)
    (c : Ctrl E) (tgt? : Option E) (t : E)
    (hwf : liveAfter c.events = c.inst?.toList)
    (hres : getTarget doc el tgt? = .ok t) :
    ∃ c2, start doc el c tgt? = .ok c2 ∧
      c2.inst? = some (c.nextId, t) ∧
      liveAfter c2.events = [(c.nextId, t)] ∧
      ((c.inst? = none ∧ c2.events = c.events ++ [.created c.nextId t]) ∨
        (∃ p, c.inst? = some p ∧
          c2.events = c.events ++ [.destroyed p.1, .created c.nextId t])) := by
  cases hin : c.inst? with
  | none =>
    have hstep : start doc el c tgt? =
        .ok ⟨some (c.nextId, t), c.nextId + 1,
             c.events ++ [.created c.nextId t]⟩ := by
      simp [start, hres, hin]
    refine ⟨_, hstep, rfl, ?_, .inl ⟨rfl, rfl⟩⟩
    rw [liveAfter_append_created, hwf, hin]
    rfl
  | some p =>
    obtain ⟨i, t0⟩ := p
    have hstep : start doc el c tgt? =
        .ok ⟨some (c.nextId, t), c.nextId + 1,
             (c.events ++ [.destroyed i]) ++ [.created c.nextId t]⟩ := by
      simp [start, hres, hin, destroyM]
    refine ⟨_, hstep, rfl, ?_, .inr ⟨(i, t0), rfl, by simp⟩⟩
    rw [liveAfter_append_created, liveAfter_append_destroyed, hwf, hin]
    simp

/-- C4 (witness): starting a fresh controller against a reference holding
element 7 leaves exactly the new engine live, bound to 7. -/
theorem start_exactly_one_live_witness :
    ∃ c2, start (⟨fun _ => none⟩ : Doc Nat)
        (.value (some (.htmlEl 7))) ⟨none, 0, []⟩ none = .ok c2 ∧
      liveAfter c2.events = [(0, 7)] := by
  obtain ⟨c2, h1, _, h3, _⟩ :=
    start_exactly_one_live (⟨fun _ => none⟩ : Doc Nat)
      (.value (some (.htmlEl 7))) ⟨none, 0, []⟩ none 7 rfl rfl
  exact ⟨c2, h1, h3⟩

/-- C5: `start()` raises the target-not-found error synchronously when no
explicit target is given and the configured element is a selector matching
no document element or an empty reference; the error is the call's result
(propagated to the caller, no retry). -/
theorem start_raises_target_not_found {E : Type} (doc : Doc E)
    (el : ElConfig E) (c : Ctrl E)
    (h : (∃ s, el = .selector s ∧ doc.query s = none) ∨ el = .value none) :
    start doc el c none = .error .targetNotFound := by
  have hres : getTarget doc el none = .error .targetNotFound := by
    rcases h with ⟨s, rfl, hq⟩ | rfl
    · simp [getTarget, hq]
    · simp [getTarget]
  simp [start, hres]

/-- C5 (witness): a selector matching nothing in an empty document makes
`start` return the target-not-found error. -/
theorem start_raises_target_not_found_witness :
    start (⟨fun _ => none⟩ : Doc Nat) (.selector "#app") ⟨none, 0, []⟩ none =
      .error .targetNotFound :=
  start_raises_target_not_found (⟨fun _ => none⟩ : Doc Nat) (.selector "#app")
    ⟨none, 0, []⟩ (.inl ⟨"#app", rfl, rfl⟩)

/-- C6: the default clone is a serialization round trip — `undefined` and
`null` are returned unchanged, and every object-typed value representable
in the serialization format clones to a value deeply equal to it (equal
erasures) but not reference-equal to it (distinct root address), given a
fresh allocation counter. -/
theorem defaultClone_round_trip :
    (∀ fresh, defaultClone .undef fresh = .undef) ∧
    (∀ fresh, defaultClone .jnull fresh = .jnull) ∧
    (∀ (x : JVal) (fresh : Nat), isObjectTyped x = true → noUndefV x = true →
      (∀ a ∈ addrsV x, a < fresh) →
      eraseV (defaultClone x fresh) = eraseV x ∧
      rootAddr (defaultClone x fresh) ≠ rootAddr x) := by
  refine ⟨fun _ => rfl, fun _ => rfl, ?_⟩
  intro x fresh hobj _ hfr
  cases x with
  | undef => simp [isObjectTyped] at hobj
  | jnull => simp [isObjectTyped] at hobj
  | num n => simp [isObjectTyped] at hobj
  | str s => simp [isObjectTyped] at hobj
  | bool b => simp [isObjectTyped] at hobj
  | obj a fs =>
    have ha : a < fresh := hfr a (by simp [addrsV])
    have hce : defaultClone (JVal.obj a fs) fresh =
        (allocV (.tobj (eraseF fs)) fresh).1 := by
      simp [defaultClone, eraseV]
    constructor
    · rw [hce, erase_allocV]
      simp [eraseV]
    · rw [hce]
      simp [allocV, rootAddr]
      omega
  | arr a es =>
    have ha : a < fresh := hfr a (by simp [addrsV])
    have hce : defaultClone (JVal.arr a es) fresh =
        (allocV (.tarr (eraseE es)) fresh).1 := by
      simp [defaultClone, eraseV]
    constructor
    · rw [hce, erase_allocV]
      simp [eraseV]
    · rw [hce]
      simp [allocV, rootAddr]
      omega

/-- C6 (witness): cloning the object `{a: 1}` at address 0 with fresh
counter 1 gives a deeply equal value at a different address. -/
theorem defaultClone_round_trip_witness :
    eraseV (defaultClone (.obj 0 (.cons "a" (.num 1) .nil)) 1) =
      eraseV (.obj 0 (.cons "a" (.num 1) .nil)) ∧
    rootAddr (defaultClone (.obj 0 (.cons "a" (.num 1) .nil)) 1) ≠
      rootAddr (.obj 0 (.cons "a" (.num 1) .nil)) :=
  defaultClone_round_trip.2.2 (.obj 0 (.cons "a" (.num 1) .nil)) 1 rfl rfl
    (by intro a ha; simp [addrsV, addrsF] at ha; omega)

/-- C7: on a within-list reorder event with a caller-supplied custom
update handler configured, the handler delegates entirely to it (the trace
is exactly the custom handler's) and performs no default mutation (the
collection is returned unchanged). -/
theorem onUpdate_custom_delegates {α τ : Type} (f : UpdateEvent → List τ)
    (lst : List α) (evt : UpdateEvent) :
    (onUpdate (some f) lst evt).1 = lst ∧
    (onUpdate (some f) lst evt).2 = f evt :=
  ⟨rfl, rfl⟩

/-- C8: every passthrough method (`save`, `toArray`, `closest`, `option`)
and `pause`/`resume`, called when no drag-engine instance exists, returns
the empty result `none` (JS `undefined`) for any engine behaviour, and
being total never throws due to the absence of an instance. -/
theorem methods_absent_no_throw {E : Type} (c : Ctrl E) (h : c.inst? = none) :
    (∀ (β : Type) (f : Nat × E → String → Option β → Option β) (name : String)
        (v? : Option β), optionM f c name v? = none) ∧
    (∀ f : Nat × E → Unit, saveM f c = none) ∧
    (∀ f : Nat × E → List String, toArrayM f c = none) ∧
    (∀ f : Nat × E → Option E, closestM f c = none) ∧
    (∀ f : Nat × E → String → Option Bool → Option Bool, pause f c = none) ∧
    (∀ f : Nat × E → String → Option Bool → Option Bool, resume f c = none) := by
  refine ⟨?_, ?_, ?_, ?_, ?_, ?_⟩ <;> intros <;>
    simp [optionM, saveM, toArrayM, closestM, pause, resume, h]

/-- C8 (witness): `option` on a freshly constructed controller with no
instance returns `none`. -/
theorem methods_absent_no_throw_witness :
    optionM (fun _ _ v? => v?) (⟨none, 0, []⟩ : Ctrl Nat) "disabled"
      (some true) = none :=
  (methods_absent_no_throw (⟨none, 0, []⟩ : Ctrl Nat) rfl).1 Bool
    (fun _ _ v? => v?) "disabled" (some true)

/-- C9: `destroy` is idempotent — destroying twice equals destroying once,
no error is raised (the function is total), and the instance reference is
absent after either sequence. -/
theorem destroy_idempotent {E : Type} (c : Ctrl E) :
    destroyM (destroyM c) = destroyM c ∧ (destroyM c).inst? = none := by
  obtain ⟨i?, n, evs⟩ := c
  cases i? with
  | none => exact ⟨rfl, rfl⟩
  | some p =>
    obtain ⟨i, t⟩ := p
    exact ⟨rfl, rfl⟩

/-- C10: on a drag-start event whose old index has no item in the bound
collection, with the default clone function in use, the handler stores
`undefined` on the dragged DOM node, throws no error (the handler is
total) and leaves the bound collection unchanged. -/
theorem onStart_missing_item_stores_undef (lst : List JVal) (evt : StartEvent)
    (fresh : Nat) (h : lst.get? evt.oldIndex = none) :
    onStart (fun v => defaultClone v fresh) lst evt = (.undef, lst) := by
  have h' := h
  simp only [List.get?_eq_getElem?] at h'
  simp [onStart, h', defaultClone]

/-- C10 (witness): a drag-start on the empty collection at index 0 stores
`undefined` and leaves the collection empty. -/
theorem onStart_missing_item_stores_undef_witness :
    onStart (fun v => defaultClone v 0) [] ⟨0⟩ = (.undef, []) :=
  onStart_missing_item_stores_undef [] ⟨0⟩ 0 rfl

end VueDraggablePlus
